import Mathlib

/-!
Verification of the agw worker (agenix-sh/agw) against its design
specification. The Rust sources under src/ are shallowly embedded:
pure functions become Lean functions, fallible functions return
`Except AgwError`, and the effectful boundaries (the RESP broker, the
subprocess world, the tokio select loop) are modelled by explicit
oracles / event inputs. Rust `u32`/`i32` values that the claims never
push near overflow are modelled as `Nat`/`Int`; Rust `String::len`
(UTF-8 byte count) is modelled by `utf8Len`.
-/

namespace Agw

deriving instance DecidableEq for Except

/-- Embedding of `AgwError` (src/src/error.rs). The `Io` and `Redis`
variants wrap foreign library types and never arise in the embedded
code paths, so they are omitted. -/
inductive AgwError where
  | Connection (msg : String)
  | Authentication (msg : String)
  | InvalidConfig (msg : String)
  | RespProtocol (msg : String)
  | Worker (msg : String)
  | Executor (msg : String)
deriving DecidableEq

/-- The `Display` rendering of `AgwError` given by the `thiserror`
attributes in src/src/error.rs (used when a caller formats an error
with `{}`). -/
def errString : AgwError → String
  | .Connection m => "Connection error: " ++ m
  | .Authentication m => "Authentication failed: " ++ m
  | .InvalidConfig m => "Invalid configuration: " ++ m
  | .RespProtocol m => "RESP protocol error: " ++ m
  | .Worker m => "Worker error: " ++ m
  | .Executor m => "Executor error: " ++ m

/-- Rust `char::is_control`: the Unicode `Cc` category,
U+0000..U+001F and U+007F..U+009F. -/
def rustIsControl (c : Char) : Bool :=
  c.val ≤ 0x1F || (0x7F ≤ c.val && c.val ≤ 0x9F)

/-- Rust `String::len`: the UTF-8 byte length of the string. -/
def utf8Len (s : String) : Nat :=
  (s.data.map Char.utf8Size).sum

/-- `startsWithL pat l`: `l` begins with `pat` (Rust `str::starts_with`
on the character level). -/
def startsWithL : List Char → List Char → Bool
  | [], _ => true
  | _ :: _, [] => false
  | p :: ps, c :: cs => p == c && startsWithL ps cs

/-- `containsSub pat l`: some contiguous run of `l` equals `pat`
(Rust `str::contains` with a literal pattern). -/
def containsSub (pat : List Char) : List Char → Bool
  | [] => pat.isEmpty
  | c :: cs => startsWithL pat (c :: cs) || containsSub pat cs

/-- One step of Rust `str::replace`: scan left to right, replacing each
non-overlapping occurrence of `pat` by `rep`; the replacement text is
not rescanned. `fuel` bounds the recursion; every step consumes at
least one character of `text`, so `fuel = text.length` is enough. -/
def replaceAllF (pat rep : List Char) : Nat → List Char → List Char
  | 0, text => text
  | _ + 1, [] => []
  | fuel + 1, c :: cs =>
    if !pat.isEmpty && startsWithL pat (c :: cs) then
      rep ++ replaceAllF pat rep fuel ((c :: cs).drop pat.length)
    else
      c :: replaceAllF pat rep fuel cs

/-- Rust `str::replace(pat, rep)` over character lists. -/
def replaceAll (pat rep text : List Char) : List Char :=
  replaceAllF pat rep text.length text

/-- The `DANGEROUS_UNICODE` constant of src/src/plan.rs: bidi
overrides/embeddings U+202A..U+202E, zero-width characters
U+200B..U+200D, and U+FEFF. -/
def DANGEROUS_UNICODE : List Char :=
  ['\u202A', '\u202B', '\u202C', '\u202D', '\u202E',
   '\u200B', '\u200C', '\u200D', '\uFEFF']

/-- `validate_string_field` of src/src/plan.rs (lines 339-379): empty
check (when requested), UTF-8 length bound, NUL bytes, control
characters other than tab and newline, dangerous Unicode. Note the
fourth parameter of this revision is `check_empty`; no character-class
restriction is applied. -/
def validate_string_field (value field_name : String) (max_len : Nat)
    (check_empty : Bool) : Except AgwError Unit :=
  if check_empty && value == "" then
    .error (.Worker (field_name ++ " cannot be empty"))
  else if max_len < utf8Len value then
    .error (.Worker (field_name ++ " exceeds maximum length of " ++ toString max_len))
  else if value.data.contains '\x00' then
    .error (.Worker (field_name ++ " contains null byte"))
  else if value.data.any (fun ch => rustIsControl ch && ch != '\t' && ch != '\n') then
    .error (.Worker (field_name ++ " contains control character"))
  else if DANGEROUS_UNICODE.any (fun c => value.data.contains c) then
    .error (.Worker (field_name ++ " contains dangerous Unicode character"))
  else
    .ok ()

/-- `check_for_dangerous_patterns` of src/src/plan.rs (lines 382-401). -/
def check_for_dangerous_patterns (value field_name : String) : Except AgwError Unit :=
  let dangerous_chars : List Char := ['&', '|', ';', '$', '\x60', '\n', '\r']
  match dangerous_chars.find? (fun ch => value.data.contains ch) with
  | some ch =>
    .error (.Worker (field_name ++ " contains dangerous character: '" ++ String.mk [ch] ++ "'"))
  | none =>
    if containsSub "../".data value.data || containsSub "..\\".data value.data
        || startsWithL "..".data value.data then
      .error (.Worker (field_name ++ " contains path traversal sequence"))
    else
      .ok ()

/-- JSON values as `serde_json::Value`. Numbers are modelled as
integers (`i64`); floating point numbers do not occur in the claims
and are out of scope. Objects are ordered association lists with the
first binding of a key the visible one. -/
inductive Json where
  | str (s : String)
  | num (n : Int)
  | bool (b : Bool)
  | null
  | arr (items : List Json)
  | obj (fields : List (String × Json))

/-- `serde_json::Value::get` for object fields. -/
def Json.getField : Json → String → Option Json
  | .obj fields, name => fields.lookup name
  | _, _ => none

/-- The `Task` struct of src/src/plan.rs. `u32` fields become `Nat`. -/
structure Task where
  task_number : Nat
  command : String
  args : List String
  input_from_task : Option Nat
  timeout_secs : Option Nat
deriving DecidableEq

/-- The `Plan` struct of src/src/plan.rs. -/
structure Plan where
  plan_id : String
  plan_description : Option String
  tasks : List Task
deriving DecidableEq

/-- The `Job` struct of src/src/plan.rs (the factored revision used by
the worker: plan reference plus substitution input). -/
structure Job where
  job_id : String
  plan_id : String
  input : Json
  status : String

/-- One match of the regex `\x7b\x7binput\.([a-zA-Z0-9_]+)\x7d\x7d` at the
head of the list: the full matched text and the captured name. -/
def matchAt (l : List Char) : Option (List Char × String) :=
  let pat : List Char := "\x7b\x7binput.".data
  if startsWithL pat l then
    let rest0 := l.drop 8
    let name := rest0.takeWhile (fun c => c.isAlpha || c.isDigit || c == '_')
    if name.isEmpty then none
    else
      match rest0.drop name.length with
      | '\x7d' :: '\x7d' :: _ =>
        some (pat ++ name ++ ['\x7d', '\x7d'], String.mk name)
      | _ => none
  else none

/-- All matches of the `INPUT_PATTERN` regex of src/src/plan.rs, in
text order (`Regex::captures_iter`). Two matches can never overlap —
an inner match would need a second "\x7b\x7b" inside a match, which contains
consecutive braces only at its start — so advancing one character at a
time finds exactly the regex's non-overlapping leftmost matches. -/
def findMatches : List Char → List (List Char × String)
  | [] => []
  | c :: cs =>
    match matchAt (c :: cs) with
    | some m => m :: findMatches cs
    | none => findMatches cs

/-- The value-to-string conversion inside `substitute_variables`
(src/src/plan.rs lines 90-101). -/
def stringifyValue (field_name : String) : Json → Except AgwError String
  | .str s => .ok s
  | .num n => .ok (toString n)
  | .bool b => .ok (if b then "true" else "false")
  | .null => .ok ""
  | _ => .error (.Worker ("Input field '" ++ field_name ++
      "' has unsupported type (must be string, number, or boolean)"))

/-- The loop body of `substitute_variables`: process the matches in
order, replacing every occurrence of each matched pattern in the
current result string, accumulating the names of missing fields; a
present field of unsupported type errors immediately, missing fields
are reported together after the loop. -/
def substLoop (input : Json) :
    List (List Char × String) → List Char → List String → Except AgwError (List Char)
  | [], result, missing =>
    if missing.isEmpty then .ok result
    else .error (.Worker ("Missing required input fields: " ++
      String.intercalate ", " missing))
  | (full, name) :: caps, result, missing =>
    match input.getField name with
    | some v =>
      match stringifyValue name v with
      | .error e => .error e
      | .ok rep => substLoop input caps (replaceAll full rep.data result) missing
    | none => substLoop input caps result (missing ++ [name])

/-- `substitute_variables` of src/src/plan.rs (lines 76-117). -/
def substitute_variables (text : String) (input : Json) : Except AgwError String :=
  (substLoop input (findMatches text.data) text.data []).map String.mk

/-- The argument loop of `Task::substitute_input`: substitute each
argument in order, stopping at the first error. -/
def substArgs (input : Json) : List String → Except AgwError (List String)
  | [] => .ok []
  | a :: rest =>
    match substitute_variables a input with
    | .error e => .error e
    | .ok a' =>
      match substArgs input rest with
      | .error e => .error e
      | .ok rest' => .ok (a' :: rest')

/-- `Task::substitute_input` of src/src/plan.rs (lines 278-293):
substitute every argument; the command and the other fields are kept. -/
def Task.substitute_input (t : Task) (input : Json) : Except AgwError Task :=
  match substArgs input t.args with
  | .error e => .error e
  | .ok args' => .ok { t with args := args' }

/-- `Job::validate` of src/src/plan.rs (lines 134-142). -/
def Job.validate (j : Job) : Except AgwError Unit :=
  match validate_string_field j.job_id "job_id" 128 true with
  | .error e => .error e
  | .ok _ => validate_string_field j.plan_id "plan_id" 128 true

/-- The argument-validation loop of `Task::validate`
(src/src/plan.rs lines 313-316). `i` is the argument index. -/
def validateArgs : List String → Nat → Except AgwError Unit
  | [], _ => .ok ()
  | a :: rest, i =>
    match validate_string_field a ("args[" ++ toString i ++ "]") 4096 false with
    | .error e => .error e
    | .ok _ =>
      match check_for_dangerous_patterns a ("args[" ++ toString i ++ "]") with
      | .error e => .error e
      | .ok _ => validateArgs rest (i + 1)

/-- `Task::validate` of src/src/plan.rs (lines 300-335). -/
def Task.validate (t : Task) : Except AgwError Unit :=
  match validate_string_field t.command "command" 4096 false with
  | .error e => .error e
  | .ok _ =>
    match check_for_dangerous_patterns t.command "command" with
    | .error e => .error e
    | .ok _ =>
      if 256 < t.args.length then
        .error (.Worker ("Task " ++ toString t.task_number ++
          " exceeds maximum of 256 arguments"))
      else
        match validateArgs t.args 0 with
        | .error e => .error e
        | .ok _ =>
          match t.timeout_secs with
          | some timeout =>
            if timeout < 1 then
              .error (.Worker ("Task " ++ toString t.task_number ++
                " timeout must be at least 1 seconds"))
            else if 86400 < timeout then
              .error (.Worker ("Task " ++ toString t.task_number ++
                " timeout must not exceed 86400 seconds"))
            else .ok ()
          | none => .ok ()

/-- The per-task part of `Plan::validate` (src/src/plan.rs lines
238-263): contiguous numbering, task validation, `input_from_task`
bounds. `index` is the position of the head task in the plan. -/
def validateTasks : List Task → Nat → Except AgwError Unit
  | [], _ => .ok ()
  | t :: ts, index =>
    let expected := index + 1
    if t.task_number ≠ expected then
      .error (.Worker ("Task numbers must be contiguous starting at 1: expected "
        ++ toString expected ++ ", got " ++ toString t.task_number))
    else
      match t.validate with
      | .error e => .error e
      | .ok _ =>
        match t.input_from_task with
        | some ref_task =>
          if ref_task = 0 then
            .error (.Worker "input_from_task must be >= 1")
          else if t.task_number ≤ ref_task then
            .error (.Worker ("Task " ++ toString t.task_number ++
              " has invalid input_from_task " ++ toString ref_task ++
              ": cannot reference self or future tasks"))
          else validateTasks ts (index + 1)
        | none => validateTasks ts (index + 1)

/-- `Plan::validate` of src/src/plan.rs (lines 215-266). -/
def Plan.validate (p : Plan) : Except AgwError Unit :=
  match validate_string_field p.plan_id "plan_id" 128 true with
  | .error e => .error e
  | .ok _ =>
    match (match p.plan_description with
           | some desc => validate_string_field desc "plan_description" 1024 false
           | none => .ok ()) with
    | .error e => .error e
    | .ok _ =>
      if p.tasks.isEmpty then
        .error (.Worker "Plan must contain at least one task")
      else if 100 < p.tasks.length then
        .error (.Worker "Plan exceeds maximum of 100 tasks")
      else
        validateTasks p.tasks 0

/-! ## Executor (src/src/executor.rs)

The subprocess world is abstracted by an oracle `exec` that tells, for
a task and its optional stdin text, whether the spawn/wiring failed
(an executor-level error) or the child ran and exited with captured
stdout, stderr and an exit code. Everything around the oracle —
the empty-command refusal, `TaskResult` construction, the
`previous_outputs` map, halt-on-failure — follows the source. -/

/-- Outcome of the subprocess world for one task: wiring failure, or a
completed child with captured output and exit code. -/
inductive ExecOutcome where
  | fail (e : AgwError)
  | exited (stdout stderr : String) (exit_code : Int)

/-- The `TaskResult` struct of src/src/executor.rs. -/
structure TaskResult where
  task_number : Nat
  stdout : String
  stderr : String
  exit_code : Int
  success : Bool
deriving DecidableEq

/-- `TaskResult::new` (src/src/executor.rs lines 42-50):
`success := exit_code == 0`. -/
def TaskResult.new (task_number : Nat) (stdout stderr : String)
    (exit_code : Int) : TaskResult :=
  { task_number := task_number, stdout := stdout, stderr := stderr,
    exit_code := exit_code, success := exit_code == 0 }

/-- The `PlanResult` struct of src/src/executor.rs. -/
structure PlanResult where
  job_id : String
  plan_id : String
  task_results : List TaskResult
  success : Bool
deriving DecidableEq

/-- `PlanResult::new` (src/src/executor.rs lines 56-64):
`success := all task results succeeded`. -/
def PlanResult.new (job_id plan_id : String)
    (task_results : List TaskResult) : PlanResult :=
  { job_id := job_id, plan_id := plan_id, task_results := task_results,
    success := task_results.all (fun r => r.success) }

/-- `PlanResult::combined_stdout` (src/src/executor.rs lines 68-74). -/
def PlanResult.combined_stdout (r : PlanResult) : String :=
  String.intercalate "\n" (r.task_results.map (fun t => t.stdout))

/-- `PlanResult::combined_stderr` (src/src/executor.rs lines 78-84). -/
def PlanResult.combined_stderr (r : PlanResult) : String :=
  String.intercalate "\n" (r.task_results.map (fun t => t.stderr))

/-- `execute_task` of src/src/executor.rs (lines 169-286): refuse an
empty command, then hand the task to the subprocess oracle and wrap a
completed child in `TaskResult::new`. -/
def execute_task (exec : Task → Option String → ExecOutcome)
    (task : Task) (stdin_input : Option String) : Except AgwError TaskResult :=
  if task.command = "" then
    .error (.Executor "Command cannot be empty")
  else
    match exec task stdin_input with
    | .fail e => .error e
    | .exited o e c => .ok (TaskResult.new task.task_number o e c)

/-- The stdin of a task: the recorded stdout of `input_from_task`,
when set and present (src/src/executor.rs lines 119-121). -/
def stdinFor (task : Task) (outputs : List (Nat × String)) : Option String :=
  task.input_from_task.bind (fun k => outputs.lookup k)

/-- The task loop of `execute_plan` (src/src/executor.rs lines
115-146): run tasks in list order, record each stdout in the
`previous_outputs` map, accumulate results, stop after the first
unsuccessful result (returning the partial list), and propagate an
executor-level error. -/
def runTasksAux (exec : Task → Option String → ExecOutcome) :
    List Task → List (Nat × String) → List TaskResult →
    Except AgwError (List TaskResult)
  | [], _, acc => .ok acc
  | t :: ts, outputs, acc =>
    match execute_task exec t (stdinFor t outputs) with
    | .error e => .error e
    | .ok res =>
      let outputs' := (t.task_number, res.stdout) :: outputs
      let acc' := acc ++ [res]
      if res.success then runTasksAux exec ts outputs' acc' else .ok acc'

/-- `execute_plan` of src/src/executor.rs (lines 103-158). The file's
executor revision reads the job id from its own `Plan` struct; the
worker's revision passes it separately — the execution logic is the
same, and the embedding takes it as a parameter. -/
def execute_plan (exec : Task → Option String → ExecOutcome)
    (job_id : String) (plan : Plan) : Except AgwError PlanResult :=
  (runTasksAux exec plan.tasks [] []).map (PlanResult.new job_id plan.plan_id)

/-! ## RESP client (src/src/resp.rs)

The broker connection is abstracted by a world `w : Nat → Bool` giving
the success of the n-th `SET` command issued by a call; each function
returns, besides its result, the ordered trace of `(key, value)` pairs
it offered to `SET` and the backoff sleeps (in milliseconds) it
performed. -/

/-- `RespClient::post_job_result_once` (src/src/resp.rs lines
283-326): local validation of `job_id` and `status`, then `SET` of the
stdout, stderr and status keys in that order, stopping at the first
failing `SET`. Returns the result, the `SET` commands issued, and the
next `SET` index. -/
def post_job_result_once (w : Nat → Bool) (n : Nat)
    (job_id stdout stderr status : String) :
    Except AgwError Unit × List (String × String) × Nat :=
  if job_id = "" then
    (.error (.RespProtocol "Job ID cannot be empty"), [], n)
  else if job_id.data.contains ':' then
    (.error (.RespProtocol ("Job ID cannot contain colons: " ++ job_id)), [], n)
  else if !(status == "completed" || status == "failed" || status == "pending"
      || status == "running") then
    (.error (.RespProtocol ("Invalid job status: " ++ status)), [], n)
  else
    let stdout_key := "job:" ++ job_id ++ ":stdout"
    let stderr_key := "job:" ++ job_id ++ ":stderr"
    let status_key := "job:" ++ job_id ++ ":status"
    if !(w n) then
      (.error (.RespProtocol "SET failed"), [(stdout_key, stdout)], n + 1)
    else if !(w (n + 1)) then
      (.error (.RespProtocol "SET failed"),
        [(stdout_key, stdout), (stderr_key, stderr)], n + 2)
    else if !(w (n + 2)) then
      (.error (.RespProtocol "SET failed"),
        [(stdout_key, stdout), (stderr_key, stderr), (status_key, status)], n + 3)
    else
      (.ok (),
        [(stdout_key, stdout), (stderr_key, stderr), (status_key, status)], n + 3)

/-- `RespClient::post_job_result` (src/src/resp.rs lines 241-276):
`MAX_RETRIES = 3` attempts of `post_job_result_once` with exponential
backoff sleeps of 100 ms then 200 ms between failed attempts, the last
error returned on exhaustion. The loop is unrolled for the constant
three attempts. -/
def post_job_result (w : Nat → Bool) (job_id stdout stderr status : String) :
    Except AgwError Unit × List (String × String) × List Nat :=
  let a0 := post_job_result_once w 0 job_id stdout stderr status
  match a0 with
  | (.ok _, w0, _) => (.ok (), w0, [])
  | (.error _, w0, n0) =>
    let a1 := post_job_result_once w n0 job_id stdout stderr status
    match a1 with
    | (.ok _, w1, _) => (.ok (), w0 ++ w1, [100])
    | (.error _, w1, n1) =>
      let a2 := post_job_result_once w n1 job_id stdout stderr status
      match a2 with
      | (.ok _, w2, _) => (.ok (), w0 ++ w1 ++ w2, [100, 200])
      | (.error e2, w2, _) => (.error e2, w0 ++ w1 ++ w2, [100, 200])

/-! ## Worker (src/src/worker.rs) -/

/-- The worker-name derivation of `Worker::new` (src/src/worker.rs
lines 38-43): the configured name, or "worker-" followed by the first
18 characters of the worker id with every "agw-" occurrence removed. -/
def derive_worker_name (config_name : Option String) (worker_id : String) : String :=
  match config_name with
  | some n => n
  | none =>
    let short_id := worker_id.data.take 18
    "worker-" ++ String.mk (replaceAll "agw-".data "".data short_id)

/-- The broker-facing inputs of one `fetch_and_prepare_job` cycle: the
`BRPOPLPUSH` result and oracles for the `JOB.GET` / `PLAN.GET` replies
and for serde's JSON parsing (whose error text is opaque here). -/
structure FetchEnv where
  brpoplpush : Option String
  job_get : String → Except String String
  parse_job : String → Except String Job
  plan_get : String → Except String String
  parse_plan : String → Except String Plan

/-- The substitution loop of step 4 of `fetch_and_prepare_job`
(src/src/worker.rs lines 350-359). -/
def substituteTasks (input : Json) (job_id : String) :
    List Task → Except AgwError (List Task)
  | [] => .ok []
  | t :: ts =>
    match t.substitute_input input with
    | .error e =>
      .error (.Worker ("Failed to substitute input variables for task "
        ++ toString t.task_number ++ " in job '" ++ job_id ++ "': " ++ errString e))
    | .ok t' =>
      match substituteTasks input job_id ts with
      | .error e => .error e
      | .ok ts' => .ok (t' :: ts')

/-- `Worker::fetch_and_prepare_job` (src/src/worker.rs lines 284-367):
pop a raw job id, fetch and parse the job, validate it, fetch and
parse the plan, validate it, substitute the input into every task and
return the prepared plan. No validation re-runs after substitution. -/
def fetch_and_prepare_job (env : FetchEnv) :
    Except AgwError (Option (String × Plan × String)) :=
  match env.brpoplpush with
  | none => .ok none
  | some job_id_raw =>
    match env.job_get job_id_raw with
    | .error e =>
      .error (.Worker ("Failed to fetch job metadata for '" ++ job_id_raw ++ "': " ++ e))
    | .ok job_json =>
      match env.parse_job job_json with
      | .error e =>
        .error (.Worker ("Failed to parse job JSON for '" ++ job_id_raw ++ "': " ++ e))
      | .ok job =>
        match job.validate with
        | .error e =>
          .error (.Worker ("Job validation failed for '" ++ job.job_id ++ "': "
            ++ errString e))
        | .ok _ =>
          match env.plan_get job.plan_id with
          | .error e =>
            .error (.Worker ("Failed to fetch plan '" ++ job.plan_id ++ "' for job '"
              ++ job.job_id ++ "': " ++ e))
          | .ok plan_json =>
            match env.parse_plan plan_json with
            | .error e =>
              .error (.Worker ("Failed to parse plan JSON for '" ++ job.plan_id
                ++ "': " ++ e))
            | .ok plan =>
              match plan.validate with
              | .error e =>
                .error (.Worker ("Plan validation failed for '" ++ plan.plan_id
                  ++ "': " ++ errString e))
              | .ok _ =>
                match substituteTasks job.input job.job_id plan.tasks with
                | .error e => .error e
                | .ok substituted =>
                  .ok (some (job.job_id, { plan with tasks := substituted }, job_id_raw))

/-- A broker command issued by `handle_plan_execution`, with whether
the broker accepted it: a `post_job_result` call (with its retry loop
inside) or an `LREM`. -/
inductive BrokerCall where
  | post (job_id stdout stderr status : String) (ok : Bool)
  | lrem (key : String) (count : Nat) (value : String) (ok : Bool)
deriving DecidableEq

/-- `Worker::handle_plan_execution` (src/src/worker.rs lines 392-466),
as the ordered trace of broker commands it issues. `postOk` tells
whether a `post_job_result` call succeeds, `lremOk` whether the `LREM`
does. On a successful execution the result is posted (status
"completed" iff all tasks succeeded) and only after successful posting
is the processing-queue entry removed; on an executor-level error the
error text is posted with status "failed", and after successful
posting the entry is removed as well. A failed post leaves the entry
in place. -/
def handle_plan_execution (outcome : Except AgwError PlanResult)
    (postOk : String → String → String → String → Bool) (lremOk : Bool)
    (job_id job_id_raw : String) : List BrokerCall :=
  match outcome with
  | .ok result =>
    let status := if result.success then "completed" else "failed"
    let stdout := result.combined_stdout
    let stderr := result.combined_stderr
    if postOk result.job_id stdout stderr status then
      [.post result.job_id stdout stderr status true,
       .lrem "queue:processing" 1 job_id_raw lremOk]
    else
      [.post result.job_id stdout stderr status false]
  | .error e =>
    let error_msg := "Execution error: " ++ errString e
    if postOk job_id "" error_msg "failed" then
      [.post job_id "" error_msg "failed" true,
       .lrem "queue:processing" 1 job_id_raw lremOk]
    else
      [.post job_id "" error_msg "failed" false]

/-! ## The worker main loop (src/src/worker.rs lines 105-235)

One iteration of `Worker::run`'s loop, as a function of the loop state
and of the environment's inputs for that iteration: whether the
in-flight handle (if any) reports finished, and which `select!` branch
fires. The `select!` guard `current_job.is_none() && !shutdown_requested`
on the fetch branch is part of the model: a fetch event arriving while
the guard is false cannot fire and the iteration does nothing. -/

/-- Loop state: the optional in-flight handle (identified by a number),
the shutdown flag, and the id the next spawn will use. -/
structure LoopState where
  currentJob : Option Nat
  shutdownRequested : Bool
  nextId : Nat
deriving DecidableEq

/-- The initial loop state of `Worker::run`. -/
def initState : LoopState :=
  { currentJob := none, shutdownRequested := false, nextId := 0 }

/-- What `fetch_and_prepare_job` produced when the fetch branch fires. -/
inductive FetchOut where
  | prepared
  | timeout
  | fetchFailed
deriving DecidableEq

/-- The `select!` branch that fires in an iteration. -/
inductive Branch where
  | sigterm
  | sigint
  | heartbeat (ok : Bool)
  | fetch (r : FetchOut)
deriving DecidableEq

/-- Observable actions of an iteration: harvesting (awaiting) a
finished execution task, and spawning a new one. -/
inductive Action where
  | harvest (h : Nat)
  | spawn (h : Nat)
deriving DecidableEq

/-- The harvest phase at the top of each iteration (src/src/worker.rs
lines 115-125): if the in-flight handle is finished, await it and
clear the slot. -/
def harvestPhase (s : LoopState) (finished : Bool) : LoopState × List Action :=
  match s.currentJob with
  | some h =>
    if finished then ({ s with currentJob := none }, [.harvest h]) else (s, [])
  | none => (s, [])

/-- The `select!` body (src/src/worker.rs lines 131-189): signals set
the shutdown flag; a failed heartbeat or a fetch error ends the loop
with an error; a prepared job spawns the execution task into the slot.
The fetch branch is guarded by `current_job.is_none() &&
!shutdown_requested` and cannot fire otherwise. The returned `Bool` is
whether the loop continues. -/
def selectPhase (s : LoopState) (b : Branch) : LoopState × Bool × List Action :=
  match b with
  | .sigterm => ({ s with shutdownRequested := true }, true, [])
  | .sigint => ({ s with shutdownRequested := true }, true, [])
  | .heartbeat ok => (s, ok, [])
  | .fetch r =>
    if s.currentJob.isNone && !s.shutdownRequested then
      match r with
      | .prepared =>
        ({ s with currentJob := some s.nextId, nextId := s.nextId + 1 },
          true, [.spawn s.nextId])
      | .timeout => (s, true, [])
      | .fetchFailed => (s, false, [])
    else (s, true, [])

/-- One full iteration of the main loop: harvest, then the
shutdown-and-idle break check, then the prioritized `select!`. -/
def loopIter (s : LoopState) (finished : Bool) (b : Branch) :
    LoopState × Bool × List Action :=
  let (s1, a1) := harvestPhase s finished
  if s1.shutdownRequested && s1.currentJob.isNone then (s1, false, a1)
  else
    let (s2, cont, a2) := selectPhase s1 b
    (s2, cont, a1 ++ a2)

/-- Run the main loop over a list of per-iteration environment inputs,
collecting the action trace; the loop stops early when an iteration
breaks or aborts. -/
def runLoop : LoopState → List (Bool × Branch) → LoopState × List Action
  | s, [] => (s, [])
  | s, (f, b) :: rest =>
    let (s', cont, acts) := loopIter s f b
    if cont then
      let (s'', acts') := runLoop s' rest
      (s'', acts ++ acts')
    else (s', acts)

/-- Number of spawn actions in a trace. -/
def countSpawns (acts : List Action) : Nat :=
  (acts.filter (fun a => match a with | .spawn _ => true | _ => false)).length

/-- Number of harvest actions in a trace. -/
def countHarvests (acts : List Action) : Nat :=
  (acts.filter (fun a => match a with | .harvest _ => true | _ => false)).length

/-- 1 when an execution task is in flight, else 0. -/
def occ (s : LoopState) : Nat :=
  if s.currentJob.isSome then 1 else 0

/-! ## Auxiliary definitions for the claim theorems: specification
predicates, the concrete scenarios of counterexamples and witnesses. -/

/-- The injection scenario of the spec: a task whose argument is the
input variable, with attacker-controlled input value. -/
def c1Task : Task :=
  { task_number := 1, command := "cat", args := ["\x7b\x7binput.path\x7d\x7d"],
    input_from_task := none, timeout_secs := some 30 }

/-- A plan holding `c1Task`. -/
def c1Plan : Plan :=
  { plan_id := "plan-1", plan_description := none, tasks := [c1Task] }

/-- The job carrying the malicious input value. -/
def c1Job : Job :=
  { job_id := "job-1", plan_id := "plan-1",
    input := Json.obj [("path", Json.str "/tmp/file; rm -rf /")],
    status := "pending" }

/-- A broker environment where every fetch succeeds and returns the
injection job and its plan. -/
def c1Env : FetchEnv :=
  { brpoplpush := some "job-1",
    job_get := fun _ => .ok "job-json",
    parse_job := fun _ => .ok c1Job,
    plan_get := fun _ => .ok "plan-json",
    parse_plan := fun _ => .ok c1Plan }

/-- Whether a broker call is an `LREM`. -/
def BrokerCall.isLrem : BrokerCall → Bool
  | .lrem _ _ _ _ => true
  | _ => false

/-- A broker environment whose fetched job body fails to parse; the
parse error text stands in for serde's message. -/
def c8Env : FetchEnv :=
  { brpoplpush := some "j1",
    job_get := fun _ => .ok "not json",
    parse_job := fun _ => .error "expected value at line 1 column 1",
    plan_get := fun _ => .ok "",
    parse_plan := fun _ => .error "unused" }

/-- Whether a JSON value is a scalar the substitution can stringify
(string, number, boolean or null). -/
def isScalar : Json → Bool
  | .arr _ => false
  | .obj _ => false
  | _ => true

/-- Whether an `Except` result is a success. -/
def isOkE {α : Type} : Except AgwError α → Bool
  | .ok _ => true
  | .error _ => false

/-- The referenced field names absent from the input, in match order
and with multiplicity — exactly what the substitution loop pushes into
its `missing_fields` list. -/
def missingOf (input : Json) (caps : List (List Char × String)) : List String :=
  (caps.filter (fun c => (input.getField c.2).isNone)).map (fun c => c.2)

/-- Modelled from the claim's reading of the spec: one simultaneous
left-to-right pass over the original text, each match replaced by the
stringified value (a string value inserted as-is), the replacement
never rescanned. Missing-field reporting is immediate here; only the
success path is compared with the code. `fuel` bounds recursion as in
`replaceAllF`. -/
def spec_substituteF (input : Json) : Nat → List Char → Except AgwError (List Char)
  | 0, l => .ok l
  | _ + 1, [] => .ok []
  | fuel + 1, c :: cs =>
    match matchAt (c :: cs) with
    | some (full, name) =>
      match input.getField name with
      | some v =>
        match stringifyValue name v with
        | .ok rep => (spec_substituteF input fuel ((c :: cs).drop full.length)).map
            (fun rest => rep.data ++ rest)
        | .error e => .error e
      | none => .error (.Worker ("Missing required input fields: " ++ name))
    | none => (spec_substituteF input fuel cs).map (fun rest => c :: rest)

/-- The claim's single-pass substitution over a string. -/
def spec_substitute (text : String) (input : Json) : Except AgwError String :=
  (spec_substituteF input text.data.length text.data).map String.mk

/-- What C4 asserts of a completed `execute_plan` run: the result
carries the given ids, its overall success is the conjunction of the
recorded per-task successes, each recorded `success` equals
`exit_code == 0`, and the recorded results are exactly the first `k`
tasks for some `k` — all but the last recorded task succeeded, the run
stopped early only because the last recorded task failed, and for a
validated plan the executed task numbers are exactly `1..k` in order. -/
def executedPrefixSpec (job_id : String) (plan : Plan) (r : PlanResult) : Prop :=
  r.job_id = job_id ∧ r.plan_id = plan.plan_id ∧
  r.success = r.task_results.all (fun tr => tr.success) ∧
  (∀ tr ∈ r.task_results, tr.success = (tr.exit_code == 0)) ∧
  ∃ k, k ≤ plan.tasks.length ∧
    r.task_results.map (fun tr => tr.task_number) =
      (plan.tasks.take k).map (fun t => t.task_number) ∧
    (∀ tr ∈ r.task_results.dropLast, tr.success = true) ∧
    (k < plan.tasks.length →
      ∃ last, r.task_results.getLast? = some last ∧ last.success = false) ∧
    (Plan.validate plan = .ok () →
      r.task_results.map (fun tr => tr.task_number) = List.range' 1 k)

/-- A subprocess oracle realizing the repo's own failure test: task 1
exits 42, task 2 would echo. -/
def c4Exec : Task → Option String → ExecOutcome := fun t _ =>
  if t.task_number = 1 then .exited "" "" 42 else .exited "should not run\n" "" 0

/-- The two-task plan of the failure test: `exit 42` then an echo that
must not run. -/
def c4Plan : Plan :=
  { plan_id := "plan-456", plan_description := none,
    tasks := [{ task_number := 1, command := "sh", args := ["-c", "exit 42"],
                input_from_task := none, timeout_secs := some 30 },
              { task_number := 2, command := "echo", args := ["should not run"],
                input_from_task := none, timeout_secs := some 30 }] }

/-- The plan result the embedding computes for `c4Plan` under `c4Exec`:
exactly one task result, exit code 42, overall failure. -/
def c4Result : PlanResult :=
  { job_id := "job-123", plan_id := "plan-456",
    task_results := [{ task_number := 1, stdout := "", stderr := "",
                       exit_code := 42, success := false }],
    success := false }

/-- What the plan.rs revision of `validate_string_field` actually
enforces: non-emptiness only when requested, the UTF-8 byte-length
bound, no NUL, no control characters beyond tab and newline, no
dangerous Unicode — and no character-class restriction at all. -/
def StringFieldOk (value : String) (max_len : Nat) (check_empty : Bool) : Prop :=
  (check_empty = true → value ≠ "") ∧
  utf8Len value ≤ max_len ∧
  ¬ value.data.contains '\x00' = true ∧
  (∀ ch ∈ value.data, rustIsControl ch = true → ch = '\t' ∨ ch = '\n') ∧
  (∀ c ∈ DANGEROUS_UNICODE, ¬ value.data.contains c = true)

/-! ## Claim theorems -/

/-- C1: with `args = ["(within braces) input.path"]` and
`input.path = "/tmp/file; rm -rf /"`, `fetch_and_prepare_job` returns
the substituted plan successfully — validation does not re-run after
substitution, the substituted task (which its own `Task::validate`
rejects for the shell metacharacter ';') is handed on to the executor. -/
theorem c1_no_revalidation_after_substitution :
    fetch_and_prepare_job c1Env =
      .ok (some ("job-1",
        { plan_id := "plan-1", plan_description := none,
          tasks := [{ task_number := 1, command := "cat",
                      args := ["/tmp/file; rm -rf /"],
                      input_from_task := none, timeout_secs := some 30 }] },
        "job-1"))
    ∧ Task.validate
        { task_number := 1, command := "cat", args := ["/tmp/file; rm -rf /"],
          input_from_task := none, timeout_secs := some 30 } =
      .error (.Worker "args[0] contains dangerous character: ';'") := by
  constructor
  · decide
  · decide

/-- C3 counterexample: a `job_id` containing ':' (outside
`[A-Za-z0-9_-]`) passes `Job::validate` — the plan.rs revision checks
emptiness, length, NUL, control characters and dangerous Unicode, but
no character class. -/
theorem c3_colon_job_id_passes_validate :
    Job.validate { job_id := "x:y", plan_id := "p", input := Json.null,
                   status := "pending" } = .ok () := by
  decide

/-- C9: the derived worker name keeps the first 14 characters of the
UUID (`take(18)` on "agw-" + UUID, then "agw-" removed), not the first
12 the comment and the spec state. -/
theorem c9_worker_name_has_14_uuid_chars :
    derive_worker_name none ("agw-" ++ "123e4567-e89b-12d3-a456-426614174000") =
      "worker-" ++ String.mk ("123e4567-e89b-12d3-a456-426614174000".data.take 14)
    ∧ derive_worker_name none ("agw-" ++ "123e4567-e89b-12d3-a456-426614174000") ≠
      "worker-" ++ String.mk ("123e4567-e89b-12d3-a456-426614174000".data.take 12) := by
  constructor
  · decide
  · decide

/-- C2 counterexample: when `execute_plan` returns an executor-level
error and posting the failure succeeds, `handle_plan_execution` does
invoke `lrem` — the entry does not remain in `queue:processing`. -/
theorem c2_lrem_after_executor_error :
    handle_plan_execution (.error (.Executor "Failed to spawn command 'x': boom"))
        (fun _ _ _ _ => true) true "job-1" "job-1" =
      [.post "job-1" "" "Execution error: Executor error: Failed to spawn command 'x': boom"
         "failed" true,
       .lrem "queue:processing" 1 "job-1" true]
    ∧ BrokerCall.lrem "queue:processing" 1 "job-1" true ∈
        handle_plan_execution (.error (.Executor "Failed to spawn command 'x': boom"))
          (fun _ _ _ _ => true) true "job-1" "job-1" := by
  constructor
  · decide
  · decide

/-- C2 (amended): `lrem` is issued only after a successful
`post_job_result`, as the last call; a failed post leaves the entry in
`queue:processing`; and on an executor-level error the error text is
posted with status "failed", after which (if posting succeeded) the
entry is removed as well. -/
theorem c2_lrem_only_after_successful_post :
    ∀ (outcome : Except AgwError PlanResult)
      (postOk : String → String → String → String → Bool) (lremOk : Bool)
      (job_id job_id_raw : String),
      (∀ c ∈ handle_plan_execution outcome postOk lremOk job_id job_id_raw,
        c.isLrem = true →
        ∃ p o e st, handle_plan_execution outcome postOk lremOk job_id job_id_raw =
            [BrokerCall.post p o e st true, c] ∧ postOk p o e st = true)
      ∧ (∀ p o e st, BrokerCall.post p o e st false ∈
            handle_plan_execution outcome postOk lremOk job_id job_id_raw →
          ∀ c ∈ handle_plan_execution outcome postOk lremOk job_id job_id_raw,
            c.isLrem = false)
      ∧ (∀ err, outcome = .error err →
          postOk job_id "" ("Execution error: " ++ errString err) "failed" = true →
          handle_plan_execution outcome postOk lremOk job_id job_id_raw =
            [BrokerCall.post job_id "" ("Execution error: " ++ errString err) "failed" true,
             BrokerCall.lrem "queue:processing" 1 job_id_raw lremOk]) := by
  intro outcome postOk lremOk job_id job_id_raw
  refine ⟨?_, ?_, ?_⟩
  · intro c hc hl
    cases outcome with
    | ok result =>
      by_cases hp : postOk result.job_id result.combined_stdout result.combined_stderr
          (if result.success then "completed" else "failed") = true
      · simp only [handle_plan_execution] at hc
        rw [if_pos hp] at hc
        simp only [List.mem_cons, List.not_mem_nil, or_false] at hc
        rcases hc with h | h
        · subst h; simp [BrokerCall.isLrem] at hl
        · subst h
          refine ⟨result.job_id, result.combined_stdout, result.combined_stderr,
            (if result.success then "completed" else "failed"), ?_, hp⟩
          simp only [handle_plan_execution]
          rw [if_pos hp]
      · simp only [handle_plan_execution] at hc
        rw [if_neg hp] at hc
        simp only [List.mem_cons, List.not_mem_nil, or_false] at hc
        subst hc; simp [BrokerCall.isLrem] at hl
    | error err =>
      by_cases hp : postOk job_id "" ("Execution error: " ++ errString err) "failed" = true
      · simp only [handle_plan_execution] at hc
        rw [if_pos hp] at hc
        simp only [List.mem_cons, List.not_mem_nil, or_false] at hc
        rcases hc with h | h
        · subst h; simp [BrokerCall.isLrem] at hl
        · subst h
          refine ⟨job_id, "", "Execution error: " ++ errString err, "failed", ?_, hp⟩
          simp only [handle_plan_execution]
          rw [if_pos hp]
      · simp only [handle_plan_execution] at hc
        rw [if_neg hp] at hc
        simp only [List.mem_cons, List.not_mem_nil, or_false] at hc
        subst hc; simp [BrokerCall.isLrem] at hl
  · intro p o e st hpost c hc
    cases outcome with
    | ok result =>
      by_cases hp : postOk result.job_id result.combined_stdout result.combined_stderr
          (if result.success then "completed" else "failed") = true
      · exfalso
        simp only [handle_plan_execution] at hpost
        rw [if_pos hp] at hpost
        simp at hpost
      · simp only [handle_plan_execution] at hc
        rw [if_neg hp] at hc
        simp only [List.mem_cons, List.not_mem_nil, or_false] at hc
        subst hc; rfl
    | error err =>
      by_cases hp : postOk job_id "" ("Execution error: " ++ errString err) "failed" = true
      · exfalso
        simp only [handle_plan_execution] at hpost
        rw [if_pos hp] at hpost
        simp at hpost
      · simp only [handle_plan_execution] at hc
        rw [if_neg hp] at hc
        simp only [List.mem_cons, List.not_mem_nil, or_false] at hc
        subst hc; rfl
  · intro err houtcome hp
    subst houtcome
    simp only [handle_plan_execution]
    rw [if_pos hp]

/-- A call with invalid `job_id` or `status` fails local validation in
`post_job_result_once` before any `SET`: some `RespProtocol` error,
no writes, `SET` counter unchanged. -/
theorem post_once_invalid (w : Nat → Bool) (n : Nat)
    (job_id stdout stderr status : String)
    (h : job_id = "" ∨ job_id.data.contains ':' = true ∨
      ¬(status = "completed" ∨ status = "failed" ∨ status = "pending"
        ∨ status = "running")) :
    ∃ m, post_job_result_once w n job_id stdout stderr status =
      (.error (.RespProtocol m), [], n) := by
  by_cases he : job_id = ""
  · exact ⟨"Job ID cannot be empty", by rw [post_job_result_once, if_pos he]⟩
  · by_cases hcol : job_id.data.contains ':' = true
    · refine ⟨"Job ID cannot contain colons: " ++ job_id, ?_⟩
      rw [post_job_result_once, if_neg he, if_pos hcol]
    · have hst : ¬(status = "completed" ∨ status = "failed" ∨ status = "pending"
          ∨ status = "running") := by
        rcases h with h | h | h
        · exact absurd h he
        · exact absurd h hcol
        · exact h
      refine ⟨"Invalid job status: " ++ status, ?_⟩
      rw [post_job_result_once, if_neg he, if_neg hcol, if_pos ?_]
      simp only [Bool.not_eq_true', Bool.or_eq_false_iff, beq_eq_false_iff_ne, ne_eq]
      push_neg at hst
      exact ⟨⟨⟨hst.1, hst.2.1⟩, hst.2.2.1⟩, hst.2.2.2⟩

/-- When the first attempt fails locally (no writes, counter
unchanged), all three attempts fail the same way: the retry loop
sleeps 100 ms and 200 ms and returns the same error with no writes. -/
theorem post_retry_of_invalid (w : Nat → Bool)
    (job_id stdout stderr status : String) (e : AgwError)
    (h : post_job_result_once w 0 job_id stdout stderr status = (.error e, [], 0)) :
    post_job_result w job_id stdout stderr status = (.error e, [], [100, 200]) := by
  simp only [post_job_result, h]
  rfl

/-- C10: a `post_job_result` call failing purely local validation
still performs all three attempts — both backoff sleeps happen — never
issues a `SET`, and returns the deterministic validation error of
`post_job_result_once` as the last error. -/
theorem c10_retry_on_local_validation_failure :
    ∀ (w : Nat → Bool) (job_id stdout stderr status : String),
      (job_id = "" ∨ job_id.data.contains ':' = true ∨
        ¬(status = "completed" ∨ status = "failed" ∨ status = "pending"
          ∨ status = "running")) →
      post_job_result w job_id stdout stderr status =
        ((post_job_result_once w 0 job_id stdout stderr status).1, [], [100, 200])
      ∧ ∃ m, (post_job_result_once w 0 job_id stdout stderr status).1 =
          .error (.RespProtocol m) := by
  intro w job_id stdout stderr status h
  obtain ⟨m, hm⟩ := post_once_invalid w 0 job_id stdout stderr status h
  refine ⟨?_, ⟨m, by rw [hm]⟩⟩
  rw [post_retry_of_invalid w job_id stdout stderr status _ hm, hm]

/-- C10 witness: the retry behaviour at the concrete colon-carrying
job id "x:y" with an always-successful broker. -/
theorem c10_witness :
    ("x:y" = "" ∨ "x:y".data.contains ':' = true ∨
      ¬("done" = "completed" ∨ "done" = "failed" ∨ "done" = "pending"
        ∨ "done" = "running"))
    ∧ (post_job_result (fun _ => true) "x:y" "out" "err" "done" =
        ((post_job_result_once (fun _ => true) 0 "x:y" "out" "err" "done").1,
          [], [100, 200])
      ∧ ∃ m, (post_job_result_once (fun _ => true) 0 "x:y" "out" "err" "done").1 =
          .error (.RespProtocol m)) :=
  ⟨by decide,
   c10_retry_on_local_validation_failure (fun _ => true) "x:y" "out" "err" "done"
     (by decide)⟩

/-- C6: `post_job_result` rejects an empty or colon-carrying `job_id`
and any status outside {completed, failed, pending, running} locally,
issuing no `SET` at all; on valid inputs with a healthy broker the
three keys `job:<id>:stdout`, `job:<id>:stderr`, `job:<id>:status` are
written in exactly that order. -/
theorem c6_post_job_result_local_validation_and_order :
    ∀ (w : Nat → Bool) (job_id stdout stderr status : String),
      ((job_id = "" ∨ job_id.data.contains ':' = true ∨
        ¬(status = "completed" ∨ status = "failed" ∨ status = "pending"
          ∨ status = "running")) →
        (∃ m, (post_job_result w job_id stdout stderr status).1 =
          .error (.RespProtocol m))
        ∧ (post_job_result w job_id stdout stderr status).2.1 = [])
      ∧ ((job_id ≠ "" ∧ job_id.data.contains ':' = false ∧
          (status = "completed" ∨ status = "failed" ∨ status = "pending"
            ∨ status = "running") ∧
          w 0 = true ∧ w 1 = true ∧ w 2 = true) →
        post_job_result w job_id stdout stderr status =
          (.ok (), [("job:" ++ job_id ++ ":stdout", stdout),
                    ("job:" ++ job_id ++ ":stderr", stderr),
                    ("job:" ++ job_id ++ ":status", status)], [])) := by
  intro w job_id stdout stderr status
  constructor
  · intro h
    obtain ⟨m, hm⟩ := post_once_invalid w 0 job_id stdout stderr status h
    have := post_retry_of_invalid w job_id stdout stderr status _ hm
    rw [this]
    exact ⟨⟨m, rfl⟩, rfl⟩
  · rintro ⟨h1, h2, h3, hw0, hw1, hw2⟩
    have honce : post_job_result_once w 0 job_id stdout stderr status =
        (.ok (), [("job:" ++ job_id ++ ":stdout", stdout),
                  ("job:" ++ job_id ++ ":stderr", stderr),
                  ("job:" ++ job_id ++ ":status", status)], 3) := by
      rw [post_job_result_once, if_neg h1, if_neg (by rw [h2]; exact Bool.false_ne_true)]
      rw [if_neg ?hstatus, if_neg (by rw [hw0]; exact (by decide)),
        if_neg (by rw [hw1]; exact (by decide)), if_neg (by rw [hw2]; exact (by decide))]
      case hstatus =>
        rcases h3 with h | h | h | h <;> subst h <;> decide
    simp only [post_job_result, honce]

/-- C8 (amended): a job body that fails JSON parsing surfaces as the
`Worker` error "Failed to parse job JSON for '<raw id>': <details>",
carrying the raw job id and the parser's failure details. -/
theorem c8_parse_error_carries_details :
    ∀ (env : FetchEnv) (raw js e : String),
      env.brpoplpush = some raw →
      env.job_get raw = .ok js →
      env.parse_job js = .error e →
      fetch_and_prepare_job env =
        .error (.Worker ("Failed to parse job JSON for '" ++ raw ++ "': " ++ e)) := by
  intro env raw js e h1 h2 h3
  simp only [fetch_and_prepare_job, h1, h2, h3]

/-- C8 witness: the amended statement at the concrete environment
`c8Env`. -/
theorem c8_witness :
    c8Env.brpoplpush = some "j1"
    ∧ c8Env.job_get "j1" = .ok "not json"
    ∧ c8Env.parse_job "not json" = .error "expected value at line 1 column 1"
    ∧ fetch_and_prepare_job c8Env =
        .error (.Worker ("Failed to parse job JSON for '" ++ "j1" ++ "': "
          ++ "expected value at line 1 column 1")) :=
  ⟨rfl, rfl, rfl,
   c8_parse_error_carries_details c8Env "j1" "not json"
     "expected value at line 1 column 1" rfl rfl rfl⟩

/-- C8 counterexample: the surfaced message is not the generic
"Invalid job JSON format" — it embeds the raw parse-failure details. -/
theorem c8_message_not_generic :
    fetch_and_prepare_job c8Env =
      .error (.Worker "Failed to parse job JSON for 'j1': expected value at line 1 column 1")
    ∧ "Failed to parse job JSON for 'j1': expected value at line 1 column 1" ≠
        "Invalid job JSON format"
    ∧ containsSub "expected value".data
        "Failed to parse job JSON for 'j1': expected value at line 1 column 1".data = true := by
  refine ⟨by decide, by decide, by decide⟩

theorem stringify_ok_of_scalar (name : String) (v : Json) (h : isScalar v = true) :
    ∃ s, stringifyValue name v = .ok s := by
  cases v <;> simp [isScalar] at h ⊢ <;> exact ⟨_, rfl⟩

theorem stringify_err_of_nonscalar (name : String) (v : Json) (h : isScalar v = false) :
    stringifyValue name v = .error (.Worker ("Input field '" ++ name ++
      "' has unsupported type (must be string, number, or boolean)")) := by
  cases v <;> simp [isScalar] at h ⊢ <;> rfl

theorem substLoop_isOk (input : Json) :
    ∀ (caps : List (List Char × String)) (result : List Char) (missing : List String),
      isOkE (substLoop input caps result missing) =
        (missing.isEmpty && caps.all (fun c =>
          match input.getField c.2 with
          | some v => isScalar v
          | none => false)) := by
  intro caps
  induction caps with
  | nil =>
    intro result missing
    cases hm : missing.isEmpty <;> simp [substLoop, hm, isOkE]
  | cons c caps ih =>
    intro result missing
    obtain ⟨full, name⟩ := c
    cases hget : input.getField name with
    | none =>
      have hne : (missing ++ [name]).isEmpty = false := by cases missing <;> rfl
      simp [substLoop, hget, ih, hne]
    | some v =>
      cases hs : isScalar v with
      | true =>
        obtain ⟨s, hstr⟩ := stringify_ok_of_scalar name v hs
        simp [substLoop, hget, hstr, ih, hs]
      | false =>
        simp [substLoop, hget, stringify_err_of_nonscalar name v hs, isOkE, hs]

theorem substLoop_missing (input : Json) :
    ∀ (caps : List (List Char × String)) (result : List Char) (missing : List String),
      (∀ c ∈ caps, ∀ v, input.getField c.2 = some v → isScalar v = true) →
      missing ++ missingOf input caps ≠ [] →
      substLoop input caps result missing =
        .error (.Worker ("Missing required input fields: " ++
          String.intercalate ", " (missing ++ missingOf input caps))) := by
  intro caps
  induction caps with
  | nil =>
    intro result missing _ hne
    rw [missingOf] at hne ⊢
    simp only [List.filter_nil, List.map_nil, List.append_nil] at hne ⊢
    cases hm : missing.isEmpty
    · simp [substLoop, hm]
    · exact absurd (by simpa using hm) hne
  | cons c caps ih =>
    intro result missing hsc hne
    obtain ⟨full, name⟩ := c
    cases hget : input.getField name with
    | none =>
      have hmiss : missingOf input ((full, name) :: caps) = name :: missingOf input caps := by
        simp [missingOf, hget]
      rw [hmiss] at hne ⊢
      have hassoc : missing ++ name :: missingOf input caps =
          (missing ++ [name]) ++ missingOf input caps := by simp
      rw [hassoc] at hne ⊢
      simp only [substLoop, hget]
      exact ih result (missing ++ [name])
        (fun c hc v hv => hsc c (List.mem_cons_of_mem _ hc) v hv) hne
    | some v =>
      have hs : isScalar v = true := hsc (full, name) (List.mem_cons_self _ _) v hget
      obtain ⟨s, hstr⟩ := stringify_ok_of_scalar name v hs
      have hmiss : missingOf input ((full, name) :: caps) = missingOf input caps := by
        simp [missingOf, hget]
      rw [hmiss] at hne ⊢
      simp only [substLoop, hget, hstr]
      exact ih _ missing (fun c hc u hu => hsc c (List.mem_cons_of_mem _ hc) u hu) hne

theorem substLoop_typeerr (input : Json) :
    ∀ (pre : List (List Char × String)) (full : List Char) (name : String)
      (post : List (List Char × String)) (result : List Char) (missing : List String)
      (v : Json),
      (∀ c ∈ pre, ∀ u, input.getField c.2 = some u → isScalar u = true) →
      input.getField name = some v → isScalar v = false →
      substLoop input (pre ++ (full, name) :: post) result missing =
        .error (.Worker ("Input field '" ++ name ++
          "' has unsupported type (must be string, number, or boolean)")) := by
  intro pre
  induction pre with
  | nil =>
    intro full name post result missing v _ hget hs
    simp only [List.nil_append, substLoop, hget,
      stringify_err_of_nonscalar name v hs]
  | cons c pre ih =>
    intro full name post result missing v hsc hget hs
    obtain ⟨cf, cn⟩ := c
    cases hgetc : input.getField cn with
    | none =>
      simp only [List.cons_append, substLoop, hgetc]
      exact ih full name post result (missing ++ [cn]) v
        (fun d hd u hu => hsc d (List.mem_cons_of_mem _ hd) u hu) hget hs
    | some u =>
      have hu : isScalar u = true := hsc (cf, cn) (List.mem_cons_self _ _) u hgetc
      obtain ⟨s, hstr⟩ := stringify_ok_of_scalar cn u hu
      simp only [List.cons_append, substLoop, hgetc, hstr]
      exact ih full name post _ missing v
        (fun d hd u' hu' => hsc d (List.mem_cons_of_mem _ hd) u' hu') hget hs

theorem isOkE_map_mk (x : Except AgwError (List Char)) :
    isOkE (x.map String.mk) = isOkE x := by
  cases x <;> rfl

/-- C5 (amended): substitution succeeds exactly when every referenced
field is present with a scalar value; when every present referenced
value is scalar but some referenced fields are absent, the error names
all missing occurrences, in match order; a present non-scalar
(array/object) value errors at its first match, taking precedence over
missing-field reporting; and the stringification of scalars is:
string as-is, integer in canonical form, booleans "true"/"false", null
the empty string. Replacement itself is sequential, so a substituted
value containing a later-matched pattern is substituted again
(the counterexample exhibits this against the claim's single-pass
reading). -/
theorem c5_substitution_semantics :
    ∀ (text : String) (input : Json),
      (isOkE (substitute_variables text input) = true ↔
        ∀ c ∈ findMatches text.data, ∃ v, input.getField c.2 = some v ∧ isScalar v = true)
      ∧ ((∀ c ∈ findMatches text.data, ∀ v, input.getField c.2 = some v →
            isScalar v = true) →
          missingOf input (findMatches text.data) ≠ [] →
          substitute_variables text input =
            .error (.Worker ("Missing required input fields: " ++
              String.intercalate ", " (missingOf input (findMatches text.data)))))
      ∧ (∀ pre full name post v,
          findMatches text.data = pre ++ (full, name) :: post →
          (∀ c ∈ pre, ∀ u, input.getField c.2 = some u → isScalar u = true) →
          input.getField name = some v → isScalar v = false →
          substitute_variables text input =
            .error (.Worker ("Input field '" ++ name ++
              "' has unsupported type (must be string, number, or boolean)")))
      ∧ (∀ name s, stringifyValue name (Json.str s) = .ok s)
      ∧ (∀ name n, stringifyValue name (Json.num n) = .ok (toString n))
      ∧ (∀ name, stringifyValue name (Json.bool true) = .ok "true"
          ∧ stringifyValue name (Json.bool false) = .ok "false"
          ∧ stringifyValue name Json.null = .ok "") := by
  intro text input
  refine ⟨?_, ?_, ?_, fun _ _ => rfl, fun _ _ => rfl, fun _ => ⟨rfl, rfl, rfl⟩⟩
  · rw [substitute_variables, isOkE_map_mk, substLoop_isOk]
    simp only [List.isEmpty_nil, Bool.true_and, List.all_eq_true]
    constructor
    · intro h c hc
      have := h c hc
      cases hget : input.getField c.2 with
      | none => rw [hget] at this; exact absurd this (by decide)
      | some v => rw [hget] at this; exact ⟨v, rfl, this⟩
    · intro h c hc
      obtain ⟨v, hv, hs⟩ := h c hc
      rw [hv]
      exact hs
  · intro hsc hne
    rw [substitute_variables, substLoop_missing input _ _ _ hsc (by simpa using hne)]
    rfl
  · intro pre full name post v hsplit hsc hget hs
    rw [substitute_variables, hsplit, substLoop_typeerr input pre full name post _ _ v hsc hget hs]
    rfl

/-- C5 counterexample: with `input.a` itself containing the pattern
for `input.b`, the code's sequential replacement substitutes the
substituted value again, yielding "xx", while the claim's single-pass
"string value as-is" reading yields the pattern text followed by "x".
The two results differ, refuting the claim as stated. -/
theorem c5_sequential_resubstitution :
    substitute_variables "\x7b\x7binput.a\x7d\x7d\x7b\x7binput.b\x7d\x7d"
        (Json.obj [("a", Json.str "\x7b\x7binput.b\x7d\x7d"), ("b", Json.str "x")]) =
      .ok "xx"
    ∧ spec_substitute "\x7b\x7binput.a\x7d\x7d\x7b\x7binput.b\x7d\x7d"
        (Json.obj [("a", Json.str "\x7b\x7binput.b\x7d\x7d"), ("b", Json.str "x")]) =
      .ok "\x7b\x7binput.b\x7d\x7dx"
    ∧ ("xx" : String) ≠ "\x7b\x7binput.b\x7d\x7dx" := by
  refine ⟨by decide, by decide, by decide⟩

theorem execute_task_ok (exec : Task → Option String → ExecOutcome)
    (t : Task) (stdin : Option String) (r : TaskResult)
    (h : execute_task exec t stdin = .ok r) :
    r.task_number = t.task_number ∧ r.success = (r.exit_code == 0) := by
  rw [execute_task] at h
  by_cases hc : t.command = ""
  · rw [if_pos hc] at h; exact Except.noConfusion h
  · rw [if_neg hc] at h
    cases hex : exec t stdin with
    | fail e => rw [hex] at h; exact Except.noConfusion h
    | exited o e c =>
      rw [hex] at h
      have : TaskResult.new t.task_number o e c = r := by
        cases h; rfl
      subst this
      exact ⟨rfl, rfl⟩

theorem runTasksAux_spec (exec : Task → Option String → ExecOutcome) :
    ∀ (ts : List Task) (outputs : List (Nat × String)) (acc res : List TaskResult),
      runTasksAux exec ts outputs acc = .ok res →
      ∃ news, res = acc ++ news ∧ ∃ k, k ≤ ts.length ∧
        news.map (fun tr => tr.task_number) = (ts.take k).map (fun t => t.task_number) ∧
        (∀ tr ∈ news.dropLast, tr.success = true) ∧
        (k < ts.length → ∃ last, news.getLast? = some last ∧ last.success = false) ∧
        (∀ tr ∈ news, tr.success = (tr.exit_code == 0)) := by
  intro ts
  induction ts with
  | nil =>
    intro outputs acc res h
    rw [runTasksAux] at h
    cases h
    exact ⟨[], by simp, 0, by simp, by simp, by simp, by simp, by simp⟩
  | cons t ts ih =>
    intro outputs acc res h
    rw [runTasksAux] at h
    cases hext : execute_task exec t (stdinFor t outputs) with
    | error e => rw [hext] at h; exact Except.noConfusion h
    | ok r0 =>
      rw [hext] at h
      dsimp only [] at h
      obtain ⟨hnum, hsuc⟩ := execute_task_ok exec t (stdinFor t outputs) r0 hext
      by_cases hs : r0.success = true
      · rw [if_pos hs] at h
        obtain ⟨news', hres, k', hk', hmap, hdrop, hfail, hexit⟩ := ih _ _ _ h
        refine ⟨r0 :: news', by rw [hres]; simp, k' + 1, by simpa using Nat.succ_le_succ hk',
          ?_, ?_, ?_, ?_⟩
        · simp only [List.map_cons, List.take_succ_cons, hnum, hmap]
        · intro tr htr
          cases hn : news' with
          | nil => subst hn; simp at htr
          | cons a l =>
            subst hn
            rw [List.dropLast_cons_of_ne_nil (by simp)] at htr
            rcases List.mem_cons.mp htr with h1 | h1
            · subst h1; exact hs
            · exact hdrop tr h1
        · intro hklt
          obtain ⟨last, hl, hlf⟩ := hfail (Nat.lt_of_succ_lt_succ (by simpa using hklt))
          refine ⟨last, ?_, hlf⟩
          cases hn : news' with
          | nil => subst hn; simp at hl
          | cons a l => subst hn; rw [List.getLast?_cons_cons]; exact hl
        · intro tr htr
          rcases List.mem_cons.mp htr with h1 | h1
          · subst h1; exact hsuc
          · exact hexit tr h1
      · rw [if_neg hs] at h
        cases h
        refine ⟨[r0], rfl, 1, by simp, ?_, by simp, ?_, ?_⟩
        · simp [hnum]
        · intro _
          exact ⟨r0, rfl, Bool.not_eq_true _ ▸ Bool.of_not_eq_true hs⟩
        · intro tr htr
          rcases List.mem_singleton.mp htr with h1
          subst h1; exact hsuc

theorem validateTasks_map :
    ∀ (ts : List Task) (index : Nat),
      validateTasks ts index = .ok () →
      ts.map (fun t => t.task_number) = List.range' (index + 1) ts.length := by
  intro ts
  induction ts with
  | nil => intro index _; rfl
  | cons t ts ih =>
    intro index h
    rw [validateTasks] at h
    by_cases hnum : t.task_number ≠ index + 1
    · rw [if_pos hnum] at h; exact Except.noConfusion h
    · rw [if_neg hnum] at h
      push_neg at hnum
      cases htv : t.validate with
      | error e => rw [htv] at h; exact Except.noConfusion h
      | ok _ =>
        rw [htv] at h
        dsimp only at h
        have hrec : validateTasks ts (index + 1) = .ok () := by
          cases hift : t.input_from_task with
          | none => rw [hift] at h; exact h
          | some r =>
            rw [hift] at h
            dsimp only at h
            by_cases hr0 : r = 0
            · rw [if_pos hr0] at h; exact Except.noConfusion h
            · rw [if_neg hr0] at h
              by_cases hge : t.task_number ≤ r
              · rw [if_pos hge] at h; exact Except.noConfusion h
              · rw [if_neg hge] at h; exact h
        have := ih (index + 1) hrec
        simp only [List.map_cons, List.length_cons, hnum, this]
        rw [List.range'_succ]

theorem plan_validate_tasks (p : Plan) (h : Plan.validate p = .ok ()) :
    validateTasks p.tasks 0 = .ok () := by
  rw [Plan.validate] at h
  cases h1 : validate_string_field p.plan_id "plan_id" 128 true with
  | error e => rw [h1] at h; exact Except.noConfusion h
  | ok _ =>
    rw [h1] at h
    cases h2 : (match p.plan_description with
        | some desc => validate_string_field desc "plan_description" 1024 false
        | none => .ok ()) with
    | error e => rw [h2] at h; exact Except.noConfusion h
    | ok _ =>
      rw [h2] at h
      by_cases h3 : p.tasks.isEmpty = true
      · rw [if_pos h3] at h; exact Except.noConfusion h
      · rw [if_neg h3] at h
        by_cases h4 : 100 < p.tasks.length
        · rw [if_pos h4] at h; exact Except.noConfusion h
        · rw [if_neg h4] at h; exact h

theorem take_range' :
    ∀ (n m s : Nat), (List.range' s n).take m = List.range' s (min m n) := by
  intro n
  induction n with
  | zero => intro m s; simp
  | succ n ih =>
    intro m s
    cases m with
    | zero => simp
    | succ m =>
      rw [List.range'_succ, List.take_succ_cons, ih m (s + 1),
        Nat.succ_min_succ, List.range'_succ]

/-- C4: `execute_plan` runs tasks in order, halts at the first task
with non-zero exit code, returns exactly the executed prefix of
results, sets each `success` to `exit_code == 0`, and the overall
success iff every recorded result succeeded. -/
theorem c4_execute_plan_halts_on_failure :
    ∀ (exec : Task → Option String → ExecOutcome) (job_id : String)
      (plan : Plan) (r : PlanResult),
      execute_plan exec job_id plan = .ok r → executedPrefixSpec job_id plan r := by
  intro exec job_id plan r h
  rw [execute_plan] at h
  cases hrun : runTasksAux exec plan.tasks [] [] with
  | error e => rw [hrun] at h; exact Except.noConfusion h
  | ok results =>
    rw [hrun] at h
    have hr : PlanResult.new job_id plan.plan_id results = r := by cases h; rfl
    subst hr
    obtain ⟨news, hres, k, hk, hmap, hdrop, hfail, hexit⟩ :=
      runTasksAux_spec exec plan.tasks [] [] results hrun
    rw [List.nil_append] at hres
    subst hres
    refine ⟨rfl, rfl, rfl, hexit, k, hk, hmap, hdrop, hfail, ?_⟩
    intro hval
    have hnums := validateTasks_map plan.tasks 0 (plan_validate_tasks plan hval)
    simp only [Nat.zero_add] at hnums
    show List.map (fun tr => tr.task_number) results = List.range' 1 k
    rw [hmap, List.map_take, hnums, take_range', Nat.min_eq_left hk]

/-- C4 witness: the halt-on-failure property evaluated on the repo's
`exit 42` test plan. -/
theorem c4_witness :
    execute_plan c4Exec "job-123" c4Plan = .ok c4Result
    ∧ executedPrefixSpec "job-123" c4Plan c4Result :=
  ⟨by decide,
   c4_execute_plan_halts_on_failure c4Exec "job-123" c4Plan c4Result (by decide)⟩

theorem countSpawns_append (a b : List Action) :
    countSpawns (a ++ b) = countSpawns a + countSpawns b := by
  simp [countSpawns, List.filter_append]

theorem countHarvests_append (a b : List Action) :
    countHarvests (a ++ b) = countHarvests a + countHarvests b := by
  simp [countHarvests, List.filter_append]

theorem occ_le_one (s : LoopState) : occ s ≤ 1 := by
  rw [occ]; split <;> omega

/-- One iteration preserves the spawned-minus-harvested balance
against the slot occupancy. -/
theorem loopIter_balance (s : LoopState) (f : Bool) (b : Branch) :
    countSpawns (loopIter s f b).2.2 + occ s =
      countHarvests (loopIter s f b).2.2 + occ (loopIter s f b).1 := by
  rcases s with ⟨cj, sr, ni⟩
  rcases cj with _ | h <;> cases sr <;> cases f <;>
    rcases b with _ | _ | ok | r <;>
    first
      | (cases ok <;>
          simp [loopIter, harvestPhase, selectPhase, occ, countSpawns, countHarvests])
      | (cases r <;>
          simp [loopIter, harvestPhase, selectPhase, occ, countSpawns, countHarvests])
      | simp [loopIter, harvestPhase, selectPhase, occ, countSpawns, countHarvests]

/-- The whole loop preserves the balance. -/
theorem runLoop_balance :
    ∀ (inputs : List (Bool × Branch)) (s : LoopState),
      countSpawns (runLoop s inputs).2 + occ s =
        countHarvests (runLoop s inputs).2 + occ (runLoop s inputs).1 := by
  intro inputs
  induction inputs with
  | nil => intro s; simp [runLoop, countSpawns, countHarvests]
  | cons p rest ih =>
    intro s
    obtain ⟨f, b⟩ := p
    have hbal := loopIter_balance s f b
    rcases hit : loopIter s f b with ⟨s', cont, acts⟩
    rw [hit] at hbal
    dsimp only at hbal
    cases cont with
    | true =>
      have ihs := ih s'
      rcases hrun : runLoop s' rest with ⟨s'', acts'⟩
      rw [hrun] at ihs
      dsimp only at ihs
      simp only [runLoop, hit, hrun, if_true]
      rw [countSpawns_append, countHarvests_append]
      omega
    | false =>
      simp only [runLoop, hit, Bool.false_eq_true, if_false]
      exact hbal

/-- A spawn only happens with the (post-harvest) slot empty and no
shutdown requested — the `select!` guard. -/
theorem loopIter_spawn_guard (s : LoopState) (f : Bool) (b : Branch) (n : Nat)
    (hmem : Action.spawn n ∈ (loopIter s f b).2.2) :
    (harvestPhase s f).1.currentJob = none ∧
      (harvestPhase s f).1.shutdownRequested = false := by
  rcases s with ⟨cj, sr, ni⟩
  rcases cj with _ | h <;> cases sr <;> cases f <;>
    rcases b with _ | _ | ok | r <;>
    first
      | (cases ok <;>
          simp_all [loopIter, harvestPhase, selectPhase])
      | (cases r <;>
          simp_all [loopIter, harvestPhase, selectPhase])
      | simp_all [loopIter, harvestPhase, selectPhase]

/-- The slot loses its handle only by harvesting it, and only when the
environment reports it finished (the `await` of a finished handle). -/
theorem loopIter_clear_only_by_harvest (s : LoopState) (f : Bool) (b : Branch)
    (h0 : Nat) (hcur : s.currentJob = some h0)
    (hgone : (loopIter s f b).1.currentJob ≠ some h0) :
    Action.harvest h0 ∈ (loopIter s f b).2.2 ∧ f = true := by
  rcases s with ⟨cj, sr, ni⟩
  subst hcur
  cases sr <;> cases f <;>
    rcases b with _ | _ | ok | r <;>
    first
      | (cases ok <;>
          simp_all [loopIter, harvestPhase, selectPhase])
      | (cases r <;>
          simp_all [loopIter, harvestPhase, selectPhase])
      | simp_all [loopIter, harvestPhase, selectPhase]

/-- C7: starting from the initial state, the worker loop never has
more than one execution task outstanding (spawns never exceed harvests
by more than one, and the surplus is exactly the slot occupancy); a
task is spawned only when the in-flight slot is empty after
harvesting and shutdown has not been requested; and the slot is
cleared only by awaiting its finished handle. -/
theorem c7_at_most_one_inflight_task :
    (∀ inputs : List (Bool × Branch),
      countSpawns (runLoop initState inputs).2 ≤
        countHarvests (runLoop initState inputs).2 + 1)
    ∧ (∀ (s : LoopState) (inputs : List (Bool × Branch)),
        countSpawns (runLoop s inputs).2 + occ s =
          countHarvests (runLoop s inputs).2 + occ (runLoop s inputs).1)
    ∧ (∀ (s : LoopState) (f : Bool) (b : Branch) (n : Nat),
        Action.spawn n ∈ (loopIter s f b).2.2 →
        (harvestPhase s f).1.currentJob = none ∧
          (harvestPhase s f).1.shutdownRequested = false)
    ∧ (∀ (s : LoopState) (f : Bool) (b : Branch) (h0 : Nat),
        s.currentJob = some h0 → (loopIter s f b).1.currentJob ≠ some h0 →
        Action.harvest h0 ∈ (loopIter s f b).2.2 ∧ f = true) := by
  refine ⟨?_, fun s inputs => runLoop_balance inputs s,
    loopIter_spawn_guard, loopIter_clear_only_by_harvest⟩
  intro inputs
  have hbal := runLoop_balance inputs initState
  have hocc : occ initState = 0 := rfl
  have hle := occ_le_one (runLoop initState inputs).1
  omega

theorem validate_string_field_iff (v f : String) (m : Nat) (ce : Bool) :
    validate_string_field v f m ce = .ok () ↔ StringFieldOk v m ce := by
  rw [validate_string_field, StringFieldOk]
  split_ifs with h1 h2 h3 h4 h5
  · refine iff_of_false (by simp) ?_
    rintro ⟨hemp, -, -, -, -⟩
    obtain ⟨hce, hveq⟩ := Bool.and_eq_true_iff.mp h1
    exact hemp hce (by simpa using hveq)
  · refine iff_of_false (by simp) ?_
    rintro ⟨-, hlen, -, -, -⟩
    exact absurd hlen (Nat.not_le.mpr h2)
  · refine iff_of_false (by simp) ?_
    rintro ⟨-, -, hnul, -, -⟩
    exact hnul h3
  · refine iff_of_false (by simp) ?_
    rintro ⟨-, -, -, hctl, -⟩
    obtain ⟨ch, hch, hprop⟩ := List.any_eq_true.mp h4
    obtain ⟨hl, hnn⟩ := Bool.and_eq_true_iff.mp hprop
    obtain ⟨hc, hnt⟩ := Bool.and_eq_true_iff.mp hl
    rcases hctl ch hch hc with ht | hn
    · exact absurd ht (by simpa using hnt)
    · exact absurd hn (by simpa using hnn)
  · refine iff_of_false (by simp) ?_
    rintro ⟨-, -, -, -, hdu⟩
    obtain ⟨c, hc, hcont⟩ := List.any_eq_true.mp h5
    exact hdu c hc hcont
  · refine iff_of_true rfl ⟨?_, ?_, ?_, ?_, ?_⟩
    · intro hce hveq
      exact h1 (by simp [hce, hveq])
    · exact Nat.not_lt.mp h2
    · exact h3
    · intro ch hch hc
      by_contra hcon
      push_neg at hcon
      obtain ⟨hnt, hnn⟩ := hcon
      exact h4 (List.any_eq_true.mpr ⟨ch, hch, by simp [hc, hnt, hnn]⟩)
    · intro c hc hcont
      exact h5 (List.any_eq_true.mpr ⟨c, hc, hcont⟩)

/-- C3 (amended): `Job::validate` succeeds exactly when both ids pass
the plan.rs `validate_string_field` checks — non-empty, at most 128
UTF-8 bytes, no NUL, no control characters beyond tab/newline, no
dangerous Unicode. No `[A-Za-z0-9_-]` restriction is enforced, so ':'
in a job id is accepted (see the counterexample). -/
theorem c3_job_validate_characterization :
    ∀ j : Job, Job.validate j = .ok () ↔
      (StringFieldOk j.job_id 128 true ∧ StringFieldOk j.plan_id 128 true) := by
  intro j
  rw [Job.validate]
  cases h1 : validate_string_field j.job_id "job_id" 128 true with
  | error e =>
    refine iff_of_false (by simp) ?_
    rintro ⟨hj, -⟩
    rw [← validate_string_field_iff j.job_id "job_id" 128 true] at hj
    rw [h1] at hj
    exact Except.noConfusion hj
  | ok a =>
    cases a
    constructor
    · intro h2
      exact ⟨(validate_string_field_iff _ "job_id" _ _).mp h1,
        (validate_string_field_iff _ "plan_id" _ _).mp h2⟩
    · rintro ⟨-, hp⟩
      exact (validate_string_field_iff _ "plan_id" _ _).mpr hp

end Agw
